import Mathlib

/-!
Verification of the Doghouse slot-machine engine (`dogHouse.py`).

This file shallowly embeds the interface-independent game engine
(`DoghouseEngine` and its helpers) and proves or refutes the frozen claims
about it.  Randomness is modelled by a stream `rng : Nat -> Nat` of raw
draws consumed sequentially: the k-th call of `weighted_choice` turns
`rng k` into a symbol by the cumulative-weight rule of `random.choices`
(an all-zero or empty weight table makes the draw fail, as
`random.choices` raises `ValueError` there).  Machine integers of the
source are Python bignums, so balances, bets and payouts are `Int` and
counts are `Nat`.  The Python `set` of sticky-wild coordinates is a
duplicate-free list used only through membership, insertion and clearing.
-/

-- Board constants (source lines 34-36).
def REELS : Nat := 5
def ROWS : Nat := 3
def LINES : Nat := 10

-- The nine symbols (source lines 39-50).
inductive SlotSymbol where
  | DOG1
  | DOG2
  | DOG3
  | DOG4
  | COLLAR
  | BOWL
  | BONE
  | PAW
  | HOUSE
deriving DecidableEq, Repr

open SlotSymbol

-- REGULAR_SYMBOLS (source line 49): every symbol except SCATTER and WILD.
def REGULAR_SYMBOLS : List SlotSymbol := [DOG1, DOG2, DOG3, DOG4, COLLAR, BOWL, BONE]

-- PAYTABLE (source lines 69-78): per-symbol map from run length to multiplier.
def PAYTABLE (base : SlotSymbol) (len : Nat) : Option Nat :=
  match base with
  | DOG1 => if len = 3 then some 8 else if len = 4 then some 30 else if len = 5 then some 100 else none
  | DOG2 => if len = 3 then some 6 else if len = 4 then some 24 else if len = 5 then some 80 else none
  | DOG3 => if len = 3 then some 5 else if len = 4 then some 18 else if len = 5 then some 60 else none
  | DOG4 => if len = 3 then some 4 else if len = 4 then some 12 else if len = 5 then some 40 else none
  | COLLAR => if len = 3 then some 3 else if len = 4 then some 8 else if len = 5 then some 20 else none
  | BOWL => if len = 3 then some 2 else if len = 4 then some 6 else if len = 5 then some 15 else none
  | BONE => if len = 3 then some 2 else if len = 4 then some 5 else if len = 5 then some 12 else none
  | PAW => none
  | HOUSE => none

-- SCATTER_PAYS (source line 81): multipliers applied to the TOTAL bet.
def SCATTER_PAYS (n : Nat) : Option Nat :=
  if n = 3 then some 2 else if n = 4 then some 10 else if n = 5 then some 50 else none

-- SCATTER_FREE_SPINS (source line 84).
def SCATTER_FREE_SPINS (n : Nat) : Option Nat :=
  if n = 3 then some 8 else if n = 4 then some 12 else if n = 5 then some 15 else none

-- SYMBOL_WEIGHTS (source lines 87-97).
def SYMBOL_WEIGHTS : SlotSymbol → Nat
  | DOG1 => 3
  | DOG2 => 4
  | DOG3 => 5
  | DOG4 => 6
  | COLLAR => 8
  | BOWL => 9
  | BONE => 9
  | PAW => 2
  | HOUSE => 2

-- self._symbols and self._weights (source lines 147-148): the insertion
-- order of the SYMBOL_WEIGHTS dict.
def symbols_list : List SlotSymbol := [DOG1, DOG2, DOG3, DOG4, COLLAR, BOWL, BONE, PAW, HOUSE]

def weights_list : List Nat := symbols_list.map SYMBOL_WEIGHTS

-- PAYLINES (source lines 100-111): the ten fixed row-index tuples.
def PAYLINES : List (List Nat) :=
  [[1, 1, 1, 1, 1],
   [0, 0, 0, 0, 0],
   [2, 2, 2, 2, 2],
   [0, 1, 2, 1, 0],
   [2, 1, 0, 1, 2],
   [0, 0, 1, 0, 0],
   [2, 2, 1, 2, 2],
   [1, 0, 0, 0, 1],
   [1, 2, 2, 2, 1],
   [0, 1, 2, 2, 2]]

-- Cumulative-weight selection, the core of random.choices: walk the
-- weighted population and pick the entry whose cumulative range contains
-- the raw draw.
def pickWeighted : List (SlotSymbol × Nat) → Nat → Option SlotSymbol
  | [], _ => none
  | (s, w) :: rest, r => if r < w then some s else pickWeighted rest (r - w)

-- weighted_choice (source lines 116-120).  random.choices raises
-- ValueError when the weights are empty or sum to zero; that failure is
-- `none` here.  A raw draw `r` is reduced modulo the total weight.
def weighted_choice (symbols : List SlotSymbol) (weights : List Nat) (r : Nat) : Option SlotSymbol :=
  if weights.sum = 0 then none
  else pickWeighted (symbols.zip weights) (r % weights.sum)

-- One element of SpinResult.line_wins (source lines 126-127):
-- (line index, base symbol, run length, effective multiplier, coins paid).
structure LineWin where
  li : Nat
  base : SlotSymbol
  length : Nat
  mult_eff : Nat
  payout : Int
deriving DecidableEq, Repr

-- SpinResult (source lines 123-130).
structure SpinResult where
  grid : List (List SlotSymbol)
  line_wins : List LineWin
  scatter_count : Nat
  scatter_win : Int
  total_win : Int
deriving DecidableEq, Repr

-- The engine state (source lines 139-148).
structure DoghouseEngine where
  balance : Int
  bet_per_line : Int
  lines : Nat
  free_spins_left : Nat
  sticky_wilds : List (Nat × Nat)
  last_result : Option SpinResult
deriving DecidableEq, Repr

-- DoghouseEngine.__init__ (source lines 139-148): plain field assignment,
-- no validation of any kind.
def DoghouseEngine.init (starting_balance : Int) (bet_per_line : Int) : DoghouseEngine :=
  { balance := starting_balance
    bet_per_line := bet_per_line
    lines := LINES
    free_spins_left := 0
    sticky_wilds := []
    last_result := none }

-- total_bet property (source lines 153-155).
def total_bet (st : DoghouseEngine) : Int := st.bet_per_line * (st.lines : Int)

-- can_spin (source lines 157-159).
def can_spin (st : DoghouseEngine) : Bool :=
  decide (0 < st.free_spins_left) || decide (total_bet st ≤ st.balance)

-- change_bet (source lines 161-164).
def change_bet (st : DoghouseEngine) (delta : Int) : DoghouseEngine :=
  { st with bet_per_line := max 1 (min 100 (st.bet_per_line + delta)) }

-- Python set.add on the sticky coordinate list.
def add_sticky (s : List (Nat × Nat)) (p : Nat × Nat) : List (Nat × Nat) :=
  if p ∈ s then s else s ++ [p]

-- The grid cell at (reel r, row c); generated grids are always 5 x 3 so
-- the defaults never fire on reachable inputs.
def cellAt (grid : List (List SlotSymbol)) (r c : Nat) : SlotSymbol :=
  (grid.getD r []).getD c PAW

-- The sticky-update pass of _generate_grid_with_sticky (source lines
-- 216-220): every WILD cell of the freshly generated grid is recorded.
def sticky_add_all (s : List (Nat × Nat)) (grid : List (List SlotSymbol)) : List (Nat × Nat) :=
  (List.range REELS).foldl (fun acc r =>
    (List.range ROWS).foldl (fun acc2 c =>
      if cellAt grid r c = HOUSE then add_sticky acc2 (r, c) else acc2) acc) s

-- The inner generation loop over the rows of one reel (source lines
-- 209-213).  `k` is the index of the next raw draw; sticky cells are
-- forced to WILD and consume no draw.
def gen_cells (sticky : List (Nat × Nat)) (rng : Nat → Nat) (r : Nat) :
    List Nat → Nat → Option (List SlotSymbol) × Nat
  | [], k => (some [], k)
  | c :: cs, k =>
    if (r, c) ∈ sticky then
      match gen_cells sticky rng r cs k with
      | (some l, k2) => (some (HOUSE :: l), k2)
      | (none, k2) => (none, k2)
    else
      match weighted_choice symbols_list weights_list (rng k) with
      | none => (none, k + 1)
      | some s =>
        match gen_cells sticky rng r cs (k + 1) with
        | (some l, k2) => (some (s :: l), k2)
        | (none, k2) => (none, k2)

-- The outer generation loop over the reels (source lines 208-213).
def gen_reels (sticky : List (Nat × Nat)) (rng : Nat → Nat) :
    List Nat → Nat → Option (List (List SlotSymbol)) × Nat
  | [], k => (some [], k)
  | r :: rs, k =>
    match gen_cells sticky rng r (List.range ROWS) k with
    | (none, k2) => (none, k2)
    | (some row, k2) =>
      match gen_reels sticky rng rs k2 with
      | (some rest, k3) => (some (row :: rest), k3)
      | (none, k3) => (none, k3)

-- _generate_grid_with_sticky (source lines 205-224).  The grid is built
-- FIRST, honoring the recorded sticky positions; only afterwards the
-- sticky set is extended (bonus active) or cleared (base game).  On a
-- draw failure the exception aborts before the sticky set is touched.
def generate_grid_with_sticky (st : DoghouseEngine) (rng : Nat → Nat) :
    Option (List (List SlotSymbol)) × DoghouseEngine :=
  match gen_reels st.sticky_wilds rng (List.range REELS) 0 with
  | (none, _) => (none, st)
  | (some grid, _) =>
    if 0 < st.free_spins_left then
      (some grid, { st with sticky_wilds := sticky_add_all st.sticky_wilds grid })
    else
      (some grid, { st with sticky_wilds := [] })

-- _match_length_left (source lines 277-291): length of the left-aligned
-- prefix matching `base` with WILD substitution, and the WILD count in it.
def match_length_left (symbols : List SlotSymbol) (base : SlotSymbol) : Nat × Nat :=
  match symbols with
  | [] => (0, 0)
  | s :: rest =>
    if s = base ∨ s = HOUSE then
      ((match_length_left rest base).1 + 1,
       if s = HOUSE then (match_length_left rest base).2 + 1
       else (match_length_left rest base).2)
    else (0, 0)

-- The symbols of one payline, left to right (source line 240).
def line_symbols (grid : List (List SlotSymbol)) (line : List Nat) : List SlotSymbol :=
  (List.range REELS).map fun i => cellAt grid i (line.getD i 0)

-- One iteration of the candidate-base loop (source lines 261-268),
-- carrying (best_payout, best_tuple).
def line_step (symbols : List SlotSymbol) (bet : Int) (li : Nat)
    (best : Int × Option LineWin) (base : SlotSymbol) : Int × Option LineWin :=
  if 3 ≤ (match_length_left symbols base).1 then
    match PAYTABLE base (match_length_left symbols base).1 with
    | some mult =>
      if best.1 < (mult : Int) * bet * 2 ^ (match_length_left symbols base).2 then
        ((mult : Int) * bet * 2 ^ (match_length_left symbols base).2,
         some ⟨li, base, (match_length_left symbols base).1,
               mult * 2 ^ (match_length_left symbols base).2,
               (mult : Int) * bet * 2 ^ (match_length_left symbols base).2⟩)
      else best
    | none => best
  else best

-- The per-line evaluation (source lines 244-268): the all-WILD special
-- case (lines 248-257) or the loop over the regular base symbols.
def line_best (symbols : List SlotSymbol) (bet : Int) (li : Nat) : Int × Option LineWin :=
  if symbols.all (fun s => decide (s = HOUSE)) then
    if (0 : Int) < ((PAYTABLE DOG1 5).getD 0 : Int) * bet * 2 ^ REELS then
      (((PAYTABLE DOG1 5).getD 0 : Int) * bet * 2 ^ REELS,
       some ⟨li, DOG1, REELS, (PAYTABLE DOG1 5).getD 0 * 2 ^ REELS,
             ((PAYTABLE DOG1 5).getD 0 : Int) * bet * 2 ^ REELS⟩)
    else (0, none)
  else
    REGULAR_SYMBOLS.foldl (line_step symbols bet li) (0, none)

-- One iteration of the payline loop of _evaluate_grid (source lines
-- 238-272), carrying (line_wins so far, total_win so far).
def eval_step (st : DoghouseEngine) (grid : List (List SlotSymbol))
    (acc : List LineWin × Int) (p : Nat × List Nat) : List LineWin × Int :=
  match (line_best (line_symbols grid p.2) st.bet_per_line p.1).2 with
  | some t =>
    if 0 < (line_best (line_symbols grid p.2) st.bet_per_line p.1).1 then
      (acc.1 ++ [t], acc.2 + (line_best (line_symbols grid p.2) st.bet_per_line p.1).1)
    else acc
  | none => acc

-- _evaluate_grid (source lines 226-275).  Scatters pay from 3 anywhere;
-- the tier is SCATTER_PAYS.get(count, SCATTER_PAYS[max key 5]).
def evaluate_grid (st : DoghouseEngine) (grid : List (List SlotSymbol)) : SpinResult :=
  { grid := grid
    line_wins := (PAYLINES.enum.foldl (eval_step st grid) ([],
      if 3 ≤ grid.flatten.countP (fun s => decide (s = PAW)) then
        (((SCATTER_PAYS (grid.flatten.countP (fun s => decide (s = PAW)))).getD
            ((SCATTER_PAYS 5).getD 0) : Int) * total_bet st)
      else 0)).1
    scatter_count := grid.flatten.countP (fun s => decide (s = PAW))
    scatter_win :=
      if 3 ≤ grid.flatten.countP (fun s => decide (s = PAW)) then
        (((SCATTER_PAYS (grid.flatten.countP (fun s => decide (s = PAW)))).getD
            ((SCATTER_PAYS 5).getD 0) : Int) * total_bet st)
      else 0
    total_win := (PAYLINES.enum.foldl (eval_step st grid) ([],
      if 3 ≤ grid.flatten.countP (fun s => decide (s = PAW)) then
        (((SCATTER_PAYS (grid.flatten.countP (fun s => decide (s = PAW)))).getD
            ((SCATTER_PAYS 5).getD 0) : Int) * total_bet st)
      else 0)).2 }

-- _free_spins_from_scatters (source lines 293-298): first key of
-- [5, 4, 3] not exceeding the scatter count.
def free_spins_from_scatters (sc_count : Nat) : Nat :=
  if 5 ≤ sc_count then (SCATTER_FREE_SPINS 5).getD 0
  else if 4 ≤ sc_count then (SCATTER_FREE_SPINS 4).getD 0
  else if 3 ≤ sc_count then (SCATTER_FREE_SPINS 3).getD 0
  else 0

inductive SpinError where
  | insufficientFunds
  | configError
deriving DecidableEq, Repr

-- The base-game debit (source lines 176-179).
def debit_state (st : DoghouseEngine) : DoghouseEngine :=
  if st.free_spins_left = 0 then { st with balance := st.balance - total_bet st } else st

-- Crediting the payout (source line 188).
def settle_balance (st : DoghouseEngine) (result : SpinResult) : DoghouseEngine :=
  { st with balance := st.balance + result.total_win }

-- Awarding retriggered free spins (source lines 191-193).
def award_free_spins (st : DoghouseEngine) (result : SpinResult) : DoghouseEngine :=
  if 0 < free_spins_from_scatters result.scatter_count then
    { st with free_spins_left :=
        st.free_spins_left + free_spins_from_scatters result.scatter_count }
  else st

-- Consuming the spin just performed (source lines 196-197).
def consume_free_spin (st : DoghouseEngine) : DoghouseEngine :=
  if 0 < st.free_spins_left then { st with free_spins_left := st.free_spins_left - 1 } else st

-- spin (source lines 166-200).  The failure paths return the untouched
-- state reached so far: the RuntimeError is raised before any mutation,
-- while a draw failure would surface after the debit.
def spin (st : DoghouseEngine) (rng : Nat → Nat) :
    Except SpinError SpinResult × DoghouseEngine :=
  if can_spin st = true then
    match generate_grid_with_sticky (debit_state st) rng with
    | (none, st2) => (Except.error SpinError.configError, st2)
    | (some grid, st2) =>
      (Except.ok (evaluate_grid st2 grid),
       { consume_free_spin (award_free_spins
           (settle_balance st2 (evaluate_grid st2 grid)) (evaluate_grid st2 grid)) with
         last_result := some (evaluate_grid st2 grid) })
  else (Except.error SpinError.insufficientFunds, st)

-- Read-only projections of a spin outcome, used to state the claims.
def spin_payout (st : DoghouseEngine) (rng : Nat → Nat) : Int :=
  match (spin st rng).1 with
  | Except.ok r => r.total_win
  | Except.error _ => 0

def spin_scatters (st : DoghouseEngine) (rng : Nat → Nat) : Nat :=
  match (spin st rng).1 with
  | Except.ok r => r.scatter_count
  | Except.error _ => 0

def spin_grid (st : DoghouseEngine) (rng : Nat → Nat) : List (List SlotSymbol) :=
  match (spin st rng).1 with
  | Except.ok r => r.grid
  | Except.error _ => []

-- Concrete material for witnesses and counterexamples.

-- A bonus-game state: one free spin left, empty sticky set.
def bonus_state : DoghouseEngine :=
  { balance := 1000, bet_per_line := 1, lines := LINES, free_spins_left := 1,
    sticky_wilds := [], last_result := none }

-- Raw-draw streams: `rng_wild_first` makes the very first drawn cell a
-- WILD (draw 46 falls in the HOUSE weight range) and every later cell
-- DOG1; `rng_zero` draws DOG1 everywhere.
def rng_wild_first : Nat → Nat := fun k => if k = 0 then 46 else 0

def rng_zero : Nat → Nat := fun _ => 0

-- Pointwise relation between a symbol list and a "wildened" copy: every
-- cell is unchanged or replaced by WILD.
def wilder (a b : SlotSymbol) : Prop := b = a ∨ b = HOUSE

-- The payout the candidate-base loop offers for one base symbol.
def cand_payout (symbols : List SlotSymbol) (bet : Int) (base : SlotSymbol) : Int :=
  if 3 ≤ (match_length_left symbols base).1 then
    match PAYTABLE base (match_length_left symbols base).1 with
    | some mult => (mult : Int) * bet * 2 ^ (match_length_left symbols base).2
    | none => 0
  else 0


-- Invariant carried by the candidate-base loop accumulator: the recorded
-- best payout is non-negative, a recorded tuple is a genuine qualifying
-- candidate of the line, and its payout is the recorded best.
def good_acc (s : List SlotSymbol) (bet : Int) (li : Nat) (acc : Int × Option LineWin) : Prop :=
  0 ≤ acc.1 ∧ (acc.2 = none → acc.1 = 0) ∧
  ∀ t, acc.2 = some t → acc.1 = t.payout ∧ 0 < t.payout ∧ t.li = li ∧
    t.base ∈ REGULAR_SYMBOLS ∧ 3 ≤ t.length ∧
    t.length = (match_length_left s t.base).1 ∧
    ∃ m, PAYTABLE t.base t.length = some m ∧
      t.mult_eff = m * 2 ^ (match_length_left s t.base).2 ∧
      t.payout = (m : Int) * bet * 2 ^ (match_length_left s t.base).2

/-!  Helper lemmas. -/

theorem can_spin_iff (st : DoghouseEngine) :
    can_spin st = true ↔ (0 < st.free_spins_left ∨ total_bet st ≤ st.balance) := by
  simp [can_spin]

theorem pickWeighted_total (l : List (SlotSymbol × Nat)) :
    ∀ n : Nat, n < (l.map Prod.snd).sum → ∃ s, pickWeighted l n = some s := by
  induction l with
  | nil => intro n h; simp at h
  | cons a t ih =>
    intro n h
    obtain ⟨s, w⟩ := a
    by_cases hn : n < w
    · exact ⟨s, by simp [pickWeighted, hn]⟩
    · obtain ⟨s2, hs2⟩ := ih (n - w) (by simp at h; omega)
      exact ⟨s2, by simp [pickWeighted, hn, hs2]⟩

theorem weighted_choice_engine_total (r : Nat) :
    ∃ s, weighted_choice symbols_list weights_list r = some s := by
  have hzip : ((symbols_list.zip weights_list).map Prod.snd).sum = 48 := by decide
  have hsum : weights_list.sum = 48 := by decide
  obtain ⟨s, hs⟩ := pickWeighted_total (symbols_list.zip weights_list) (r % 48)
    (by rw [hzip]; exact Nat.mod_lt r (by decide))
  exact ⟨s, by rw [weighted_choice, hsum]; simp [hs]⟩

theorem gen_cells_total (sticky : List (Nat × Nat)) (rng : Nat → Nat) (r : Nat) :
    ∀ (cs : List Nat) (k : Nat), ∃ row k2, gen_cells sticky rng r cs k = (some row, k2) := by
  intro cs
  induction cs with
  | nil => intro k; exact ⟨[], k, rfl⟩
  | cons c cs ih =>
    intro k
    by_cases hm : (r, c) ∈ sticky
    · obtain ⟨row, k2, hrec⟩ := ih k
      exact ⟨HOUSE :: row, k2, by simp [gen_cells, hm, hrec]⟩
    · obtain ⟨s, hs⟩ := weighted_choice_engine_total (rng k)
      obtain ⟨row, k2, hrec⟩ := ih (k + 1)
      exact ⟨s :: row, k2, by simp [gen_cells, hm, hs, hrec]⟩

theorem gen_reels_total (sticky : List (Nat × Nat)) (rng : Nat → Nat) :
    ∀ (rs : List Nat) (k : Nat), ∃ grid k2, gen_reels sticky rng rs k = (some grid, k2) := by
  intro rs
  induction rs with
  | nil => intro k; exact ⟨[], k, rfl⟩
  | cons r rs ih =>
    intro k
    obtain ⟨row, k2, hrow⟩ := gen_cells_total sticky rng r (List.range ROWS) k
    obtain ⟨rest, k3, hrest⟩ := ih k2
    exact ⟨row :: rest, k3, by simp [gen_reels, hrow, hrest]⟩

theorem generate_some (st : DoghouseEngine) (rng : Nat → Nat) :
    ∃ grid st2, generate_grid_with_sticky st rng = (some grid, st2) ∧
      st2.balance = st.balance ∧ st2.bet_per_line = st.bet_per_line ∧
      st2.free_spins_left = st.free_spins_left ∧ st2.lines = st.lines ∧
      st2.last_result = st.last_result ∧
      st2.sticky_wilds =
        (if 0 < st.free_spins_left then sticky_add_all st.sticky_wilds grid else []) := by
  obtain ⟨grid, k2, hg⟩ := gen_reels_total st.sticky_wilds rng (List.range REELS) 0
  by_cases hf : 0 < st.free_spins_left
  · exact ⟨grid, { st with sticky_wilds := sticky_add_all st.sticky_wilds grid },
      by simp [generate_grid_with_sticky, hg, hf], by simp, by simp, by simp,
      by simp, by simp, by simp [hf]⟩
  · exact ⟨grid, { st with sticky_wilds := [] },
      by simp [generate_grid_with_sticky, hg, hf], by simp, by simp, by simp,
      by simp, by simp, by simp [hf]⟩

theorem spin_ok (st : DoghouseEngine) (rng : Nat → Nat) (h : can_spin st = true) :
    ∃ grid st2,
      generate_grid_with_sticky (debit_state st) rng = (some grid, st2) ∧
      spin st rng =
        (Except.ok (evaluate_grid st2 grid),
         { consume_free_spin (award_free_spins
             (settle_balance st2 (evaluate_grid st2 grid)) (evaluate_grid st2 grid)) with
           last_result := some (evaluate_grid st2 grid) }) ∧
      st2.balance = (debit_state st).balance ∧
      st2.bet_per_line = st.bet_per_line ∧
      st2.free_spins_left = st.free_spins_left ∧
      st2.lines = st.lines := by
  obtain ⟨grid, st2, hg, hb, hbet, hf, hl, _, _⟩ := generate_some (debit_state st) rng
  have hdb : (debit_state st).bet_per_line = st.bet_per_line := by
    simp [debit_state]; split <;> simp
  have hdf : (debit_state st).free_spins_left = st.free_spins_left := by
    simp [debit_state]; split <;> simp
  have hdl : (debit_state st).lines = st.lines := by
    simp [debit_state]; split <;> simp
  exact ⟨grid, st2, hg, by simp [spin, h, hg], hb, by rw [hbet, hdb], by rw [hf, hdf],
    by rw [hl, hdl]⟩

theorem line_step_cases (s : List SlotSymbol) (bet : Int) (li : Nat)
    (acc : Int × Option LineWin) (b : SlotSymbol) :
    line_step s bet li acc b = acc ∨
    (∃ m, 3 ≤ (match_length_left s b).1 ∧ PAYTABLE b (match_length_left s b).1 = some m ∧
      acc.1 < (m : Int) * bet * 2 ^ (match_length_left s b).2 ∧
      line_step s bet li acc b =
        ((m : Int) * bet * 2 ^ (match_length_left s b).2,
         some ⟨li, b, (match_length_left s b).1, m * 2 ^ (match_length_left s b).2,
               (m : Int) * bet * 2 ^ (match_length_left s b).2⟩)) := by
  unfold line_step
  split
  · split
    · split
      · next m heq hlt => exact Or.inr ⟨m, by assumption, heq, hlt, rfl⟩
      · exact Or.inl rfl
    · exact Or.inl rfl
  · exact Or.inl rfl

theorem cand_payout_eq (s : List SlotSymbol) (bet : Int) (b : SlotSymbol) (m : Nat)
    (h3 : 3 ≤ (match_length_left s b).1)
    (hpt : PAYTABLE b (match_length_left s b).1 = some m) :
    cand_payout s bet b = (m : Int) * bet * 2 ^ (match_length_left s b).2 := by
  unfold cand_payout
  rw [if_pos h3, hpt]

theorem cand_payout_zero (s : List SlotSymbol) (bet : Int) (b : SlotSymbol)
    (h : ¬ (3 ≤ (match_length_left s b).1 ∧
      (PAYTABLE b (match_length_left s b).1).isSome = true)) :
    cand_payout s bet b = 0 := by
  unfold cand_payout
  split
  · next h3 =>
    cases hpt : PAYTABLE b (match_length_left s b).1 with
    | none => rfl
    | some m => exact absurd ⟨h3, by simp [hpt]⟩ h
  · rfl

theorem line_step_fst_le (s : List SlotSymbol) (bet : Int) (li : Nat)
    (acc : Int × Option LineWin) (b : SlotSymbol) :
    acc.1 ≤ (line_step s bet li acc b).1 := by
  rcases line_step_cases s bet li acc b with h | ⟨m, _, _, hlt, h⟩
  · rw [h]
  · rw [h]; exact le_of_lt hlt

theorem foldl_line_step_fst_le (s : List SlotSymbol) (bet : Int) (li : Nat) :
    ∀ (l : List SlotSymbol) (acc : Int × Option LineWin),
      acc.1 ≤ (l.foldl (line_step s bet li) acc).1 := by
  intro l
  induction l with
  | nil => intro acc; exact le_refl _
  | cons b t ih =>
    intro acc
    exact le_trans (line_step_fst_le s bet li acc b) (ih (line_step s bet li acc b))

theorem line_step_fst_ge_cand (s : List SlotSymbol) (bet : Int) (li : Nat)
    (acc : Int × Option LineWin) (b : SlotSymbol) (h0 : 0 ≤ acc.1) :
    cand_payout s bet b ≤ (line_step s bet li acc b).1 := by
  unfold line_step cand_payout
  split
  · split
    · split
      · next hlt => exact le_refl _
      · next hlt => simpa using le_of_not_lt hlt
    · simpa using h0
  · simpa using h0

theorem foldl_line_step_ge_cand (s : List SlotSymbol) (bet : Int) (li : Nat) :
    ∀ (l : List SlotSymbol) (acc : Int × Option LineWin) (b : SlotSymbol),
      b ∈ l → 0 ≤ acc.1 →
      cand_payout s bet b ≤ (l.foldl (line_step s bet li) acc).1 := by
  intro l
  induction l with
  | nil => intro acc b hb; exact absurd hb (List.not_mem_nil b)
  | cons x t ih =>
    intro acc b hb h0
    rcases List.mem_cons.mp hb with rfl | hb2
    · exact le_trans (line_step_fst_ge_cand s bet li acc b h0)
        (foldl_line_step_fst_le s bet li t (line_step s bet li acc b))
    · exact ih (line_step s bet li acc x) b hb2
        (le_trans h0 (line_step_fst_le s bet li acc x))

theorem foldl_line_step_achieved (s : List SlotSymbol) (bet : Int) (li : Nat) :
    ∀ (l : List SlotSymbol) (acc : Int × Option LineWin),
      (l.foldl (line_step s bet li) acc).1 = acc.1 ∨
      ∃ b ∈ l, (l.foldl (line_step s bet li) acc).1 = cand_payout s bet b := by
  intro l
  induction l with
  | nil => intro acc; exact Or.inl rfl
  | cons x t ih =>
    intro acc
    rcases ih (line_step s bet li acc x) with h | ⟨b, hb, h⟩
    · rcases line_step_cases s bet li acc x with hs | ⟨m, h3, hpt, _, hs⟩
      · rw [List.foldl_cons]
        rw [hs] at h ⊢
        exact Or.inl h
      · refine Or.inr ⟨x, List.mem_cons_self x t, ?_⟩
        rw [List.foldl_cons, h, hs, cand_payout_eq s bet x m h3 hpt]
    · exact Or.inr ⟨b, List.mem_cons_of_mem x hb, h⟩

theorem foldl_line_step_le (s : List SlotSymbol) (bet : Int) (li : Nat) :
    ∀ (l : List SlotSymbol) (acc : Int × Option LineWin) (M : Int),
      (∀ b ∈ l, cand_payout s bet b ≤ M) → acc.1 ≤ M →
      (l.foldl (line_step s bet li) acc).1 ≤ M := by
  intro l
  induction l with
  | nil => intro acc M _ hacc; exact hacc
  | cons x t ih =>
    intro acc M hall hacc
    refine ih (line_step s bet li acc x) M (fun b hb => hall b (List.mem_cons_of_mem x hb)) ?_
    rcases line_step_cases s bet li acc x with hs | ⟨m, h3, hpt, _, hs⟩
    · rw [hs]; exact hacc
    · rw [hs]
      have := hall x (List.mem_cons_self x t)
      rwa [cand_payout_eq s bet x m h3 hpt] at this

theorem line_step_good (s : List SlotSymbol) (bet : Int) (li : Nat)
    (acc : Int × Option LineWin) (b : SlotSymbol) (hb : b ∈ REGULAR_SYMBOLS)
    (hg : good_acc s bet li acc) : good_acc s bet li (line_step s bet li acc b) := by
  rcases line_step_cases s bet li acc b with h | ⟨m, h3, hpt, hlt, h⟩
  · rw [h]; exact hg
  · rw [h]
    refine ⟨le_of_lt (lt_of_le_of_lt hg.1 hlt), by simp, ?_⟩
    intro t ht
    have ht2 : t = ⟨li, b, (match_length_left s b).1, m * 2 ^ (match_length_left s b).2,
        (m : Int) * bet * 2 ^ (match_length_left s b).2⟩ := by
      simpa using ht.symm
    subst ht2
    exact ⟨rfl, lt_of_le_of_lt hg.1 hlt, rfl, hb, h3, rfl, m, hpt, rfl, rfl⟩

theorem foldl_line_step_good (s : List SlotSymbol) (bet : Int) (li : Nat) :
    ∀ (l : List SlotSymbol) (acc : Int × Option LineWin),
      (∀ b ∈ l, b ∈ REGULAR_SYMBOLS) → good_acc s bet li acc →
      good_acc s bet li (l.foldl (line_step s bet li) acc) := by
  intro l
  induction l with
  | nil => intro acc _ hg; exact hg
  | cons x t ih =>
    intro acc hall hg
    exact ih (line_step s bet li acc x) (fun b hb => hall b (List.mem_cons_of_mem x hb))
      (line_step_good s bet li acc x (hall x (List.mem_cons_self x t)) hg)

theorem good_acc_init (s : List SlotSymbol) (bet : Int) (li : Nat) :
    good_acc s bet li (0, none) :=
  ⟨le_refl 0, fun _ => rfl, fun t ht => by simp at ht⟩

theorem line_best_core (s : List SlotSymbol) (bet : Int) (li : Nat) :
    0 ≤ (line_best s bet li).1 ∧
    ((line_best s bet li).2 = none → (line_best s bet li).1 = 0) ∧
    ∀ t, (line_best s bet li).2 = some t → (line_best s bet li).1 = t.payout ∧
      0 < t.payout ∧ t.li = li ∧ t.payout = (t.mult_eff : Int) * bet := by
  unfold line_best
  split
  · split
    · next hpos =>
      refine ⟨le_of_lt hpos, by simp, ?_⟩
      intro t ht
      have ht2 : t = ⟨li, DOG1, REELS, (PAYTABLE DOG1 5).getD 0 * 2 ^ REELS,
          ((PAYTABLE DOG1 5).getD 0 : Int) * bet * 2 ^ REELS⟩ := by
        simpa using ht.symm
      subst ht2
      refine ⟨rfl, hpos, rfl, ?_⟩
      push_cast
      ring
    · exact ⟨le_refl 0, fun _ => rfl, fun t ht => by simp at ht⟩
  · have hg := foldl_line_step_good s bet li REGULAR_SYMBOLS (0, none)
      (fun b hb => hb) (good_acc_init s bet li)
    obtain ⟨h0, hnone, hsome⟩ := hg
    refine ⟨h0, hnone, ?_⟩
    intro t ht
    obtain ⟨hfst, hpos, hli, _, _, _, m, hpt, hme, hpay⟩ := hsome t ht
    refine ⟨hfst, hpos, hli, ?_⟩
    rw [hpay, hme]
    push_cast
    ring

theorem line_best_char (s : List SlotSymbol) (bet : Int) (li : Nat)
    (hnw : s.all (fun x => decide (x = HOUSE)) = false) :
    good_acc s bet li (line_best s bet li) := by
  unfold line_best
  rw [hnw]
  simp only [Bool.false_eq_true, if_false]
  exact foldl_line_step_good s bet li REGULAR_SYMBOLS (0, none)
    (fun b hb => hb) (good_acc_init s bet li)

theorem match_length_left_takeWhile (base : SlotSymbol) :
    ∀ s : List SlotSymbol,
      match_length_left s base =
        ((s.takeWhile fun x => decide (x = base ∨ x = HOUSE)).length,
         (s.takeWhile fun x => decide (x = base ∨ x = HOUSE)).countP
           fun x => decide (x = HOUSE)) := by
  intro s
  induction s with
  | nil => rfl
  | cons a t ih =>
    by_cases hh : a = HOUSE
    · simp [match_length_left, hh, List.takeWhile_cons, List.countP_cons, ih]
    · by_cases hb : a = base
      · simp [match_length_left, hb, hh, List.takeWhile_cons, List.countP_cons, ih]
        split <;> omega
      · have h : ¬(a = base ∨ a = HOUSE) := by tauto
        simp [match_length_left, h, hb, hh, List.takeWhile_cons]

theorem wilder_refl (l : List SlotSymbol) : List.Forall₂ wilder l l := by
  induction l with
  | nil => exact List.Forall₂.nil
  | cons a t ih => exact List.Forall₂.cons (Or.inl rfl) ih

theorem wilder_set (l : List SlotSymbol) : ∀ i : Nat, List.Forall₂ wilder l (l.set i HOUSE) := by
  induction l with
  | nil => intro i; exact List.Forall₂.nil
  | cons a t ih =>
    intro i
    cases i with
    | zero => exact List.Forall₂.cons (Or.inr rfl) (wilder_refl t)
    | succ n => exact List.Forall₂.cons (Or.inl rfl) (ih n)

theorem match_length_left_mono (base : SlotSymbol) {s s2 : List SlotSymbol}
    (h : List.Forall₂ wilder s s2) :
    (match_length_left s base).1 ≤ (match_length_left s2 base).1 ∧
    (match_length_left s base).2 ≤ (match_length_left s2 base).2 := by
  induction h with
  | nil => exact ⟨le_refl _, le_refl _⟩
  | @cons a b s s2 hab htail ih =>
    by_cases ha : a = base ∨ a = HOUSE
    · have hb : b = base ∨ b = HOUSE := by
        rcases hab with rfl | rfl
        · exact ha
        · exact Or.inr rfl
      constructor
      · simp only [match_length_left, if_pos ha, if_pos hb]
        omega
      · by_cases hah : a = HOUSE
        · have hbh : b = HOUSE := by
            rcases hab with rfl | rfl <;> exact hah ▸ rfl
          simp only [match_length_left, if_pos ha, if_pos hb, if_pos hah, if_pos hbh]
          omega
        · simp only [match_length_left, if_pos ha, if_pos hb, if_neg hah]
          split <;> omega
    · constructor <;> simp [match_length_left, ha]
  
theorem match_length_left_bounds (base : SlotSymbol) :
    ∀ s : List SlotSymbol, (match_length_left s base).1 ≤ s.length ∧
      (match_length_left s base).2 ≤ (match_length_left s base).1 := by
  intro s
  induction s with
  | nil => exact ⟨le_refl _, le_refl _⟩
  | cons a t ih =>
    by_cases h : a = base ∨ a = HOUSE
    · simp only [match_length_left, if_pos h, List.length_cons]
      split <;> omega
    · simp [match_length_left, h]

theorem PAYTABLE_mono : ∀ b ∈ REGULAR_SYMBOLS, ∀ l1 < 6, ∀ l2 < 6, 3 ≤ l1 → l1 ≤ l2 →
    ((PAYTABLE b l1).isSome = true → (PAYTABLE b l2).isSome = true) ∧
    (PAYTABLE b l1).getD 0 ≤ (PAYTABLE b l2).getD 0 := by decide

theorem PAYTABLE_le_100 : ∀ b ∈ REGULAR_SYMBOLS, ∀ l < 6, (PAYTABLE b l).getD 0 ≤ 100 := by
  decide

theorem cand_payout_nonneg (s : List SlotSymbol) (bet : Int) (b : SlotSymbol)
    (hbet : 0 ≤ bet) : 0 ≤ cand_payout s bet b := by
  unfold cand_payout
  split
  · split
    · exact mul_nonneg (mul_nonneg (Int.natCast_nonneg _) hbet) (pow_nonneg (by norm_num) _)
    · exact le_refl 0
  · exact le_refl 0

theorem cand_payout_mono (s s2 : List SlotSymbol) (bet : Int) (b : SlotSymbol)
    (hb : b ∈ REGULAR_SYMBOLS) (hlen : s.length = 5)
    (hw : List.Forall₂ wilder s s2) (hbet : 0 ≤ bet) :
    cand_payout s bet b ≤ cand_payout s2 bet b := by
  have hlen2 : s2.length = 5 := by rw [← List.Forall₂.length_eq hw, hlen]
  have hm := match_length_left_mono b hw
  have hb1 := match_length_left_bounds b s
  have hb2 := match_length_left_bounds b s2
  by_cases h3 : 3 ≤ (match_length_left s b).1
  · cases hpt : PAYTABLE b (match_length_left s b).1 with
    | none =>
      have : cand_payout s bet b = 0 := by
        unfold cand_payout
        rw [if_pos h3, hpt]
      rw [this]
      exact cand_payout_nonneg s2 bet b hbet
    | some m =>
      have h32 : 3 ≤ (match_length_left s2 b).1 := le_trans h3 hm.1
      have hlt1 : (match_length_left s b).1 < 6 := by omega
      have hlt2 : (match_length_left s2 b).1 < 6 := by omega
      have hmono := PAYTABLE_mono b hb (match_length_left s b).1 hlt1
        (match_length_left s2 b).1 hlt2 h3 hm.1
      have hpt2 : (PAYTABLE b (match_length_left s2 b).1).isSome = true :=
        hmono.1 (by simp [hpt])
      obtain ⟨m2, hm2⟩ := Option.isSome_iff_exists.mp hpt2
      have hmle : m ≤ m2 := by
        have := hmono.2
        rwa [hpt, hm2, Option.getD_some, Option.getD_some] at this
      rw [cand_payout_eq s bet b m h3 hpt, cand_payout_eq s2 bet b m2 h32 hm2]
      have h2w : (2 : Int) ^ (match_length_left s b).2 ≤ 2 ^ (match_length_left s2 b).2 :=
        pow_le_pow_right (by norm_num) hm.2
      exact mul_le_mul
        (mul_le_mul_of_nonneg_right (by exact_mod_cast hmle) hbet)
        h2w (pow_nonneg (by norm_num) _)
        (mul_nonneg (Int.natCast_nonneg _) hbet)
  · have : cand_payout s bet b = 0 := by
      unfold cand_payout
      rw [if_neg h3]
    rw [this]
    exact cand_payout_nonneg s2 bet b hbet

theorem cand_payout_le_top (s : List SlotSymbol) (bet : Int) (b : SlotSymbol)
    (hb : b ∈ REGULAR_SYMBOLS) (hlen : s.length = 5) (hbet : 0 ≤ bet) :
    cand_payout s bet b ≤ ((PAYTABLE DOG1 5).getD 0 : Int) * bet * 2 ^ REELS := by
  have hbnd := match_length_left_bounds b s
  by_cases h3 : 3 ≤ (match_length_left s b).1
  · cases hpt : PAYTABLE b (match_length_left s b).1 with
    | none =>
      have : cand_payout s bet b = 0 := by
        unfold cand_payout
        rw [if_pos h3, hpt]
      rw [this]
      exact mul_nonneg (mul_nonneg (by norm_num) hbet) (pow_nonneg (by norm_num) _)
    | some m =>
      have hm100 : m ≤ 100 := by
        have := PAYTABLE_le_100 b hb (match_length_left s b).1 (by omega)
        rwa [hpt, Option.getD_some] at this
      rw [cand_payout_eq s bet b m h3 hpt]
      have hpt5 : ((PAYTABLE DOG1 5).getD 0 : Int) = 100 := by decide
      rw [hpt5]
      have h2w : (2 : Int) ^ (match_length_left s b).2 ≤ 2 ^ REELS :=
        pow_le_pow_right (by norm_num) (by simp [REELS]; omega)
      exact mul_le_mul
        (mul_le_mul_of_nonneg_right (by exact_mod_cast hm100) hbet)
        h2w (pow_nonneg (by norm_num) _)
        (mul_nonneg (by norm_num) hbet)
  · have : cand_payout s bet b = 0 := by
      unfold cand_payout
      rw [if_neg h3]
    rw [this]
    exact mul_nonneg (mul_nonneg (by norm_num) hbet) (pow_nonneg (by norm_num) _)

theorem set_house_of_all (s : List SlotSymbol)
    (hs : s.all (fun x => decide (x = HOUSE)) = true) :
    ∀ i : Nat, s.set i HOUSE = s := by
  induction s with
  | nil => intro i; rfl
  | cons a t ih =>
    intro i
    simp only [List.all_cons, Bool.and_eq_true, decide_eq_true_eq] at hs
    cases i with
    | zero => simp [List.set, hs.1]
    | succ n =>
      simp only [List.set]
      rw [ih (by simpa using hs.2) n]

theorem line_best_mono (s : List SlotSymbol) (i : Nat) (bet : Int) (li : Nat)
    (hlen : s.length = 5) (hbet : 0 ≤ bet) :
    (line_best s bet li).1 ≤ (line_best (s.set i HOUSE) bet li).1 := by
  by_cases hA : s.all (fun x => decide (x = HOUSE)) = true
  · rw [set_house_of_all s hA i]
  · have hA2 : s.all (fun x => decide (x = HOUSE)) = false := by
      simpa using hA
    have hw := wilder_set s i
    by_cases hB : (s.set i HOUSE).all (fun x => decide (x = HOUSE)) = true
    · have hRHS : line_best (s.set i HOUSE) bet li =
          if (0 : Int) < ((PAYTABLE DOG1 5).getD 0 : Int) * bet * 2 ^ REELS then
            (((PAYTABLE DOG1 5).getD 0 : Int) * bet * 2 ^ REELS,
             some ⟨li, DOG1, REELS, (PAYTABLE DOG1 5).getD 0 * 2 ^ REELS,
                   ((PAYTABLE DOG1 5).getD 0 : Int) * bet * 2 ^ REELS⟩)
          else (0, none) := by
        unfold line_best
        rw [hB]
        simp
      have hLHS : line_best s bet li =
          REGULAR_SYMBOLS.foldl (line_step s bet li) (0, none) := by
        unfold line_best
        rw [hA2]
        simp
      rw [hRHS, hLHS]
      by_cases hpos : (0 : Int) < ((PAYTABLE DOG1 5).getD 0 : Int) * bet * 2 ^ REELS
      · rw [if_pos hpos]
        exact foldl_line_step_le s bet li REGULAR_SYMBOLS (0, none) _
          (fun b hb => cand_payout_le_top s bet b hb hlen hbet) (le_of_lt hpos)
      · rw [if_neg hpos]
        refine foldl_line_step_le s bet li REGULAR_SYMBOLS (0, none) 0 ?_ (le_refl 0)
        intro b hb
        exact le_trans (cand_payout_le_top s bet b hb hlen hbet) (le_of_not_lt hpos)
    · have hB2 : (s.set i HOUSE).all (fun x => decide (x = HOUSE)) = false := by
        simpa using hB
      have hLHS : line_best s bet li =
          REGULAR_SYMBOLS.foldl (line_step s bet li) (0, none) := by
        unfold line_best
        rw [hA2]
        simp
      have hRHS : line_best (s.set i HOUSE) bet li =
          REGULAR_SYMBOLS.foldl (line_step (s.set i HOUSE) bet li) (0, none) := by
        unfold line_best
        rw [hB2]
        simp
      rw [hLHS, hRHS]
      rcases foldl_line_step_achieved s bet li REGULAR_SYMBOLS (0, none) with h | ⟨b, hb, h⟩
      · rw [h]
        exact foldl_line_step_fst_le (s.set i HOUSE) bet li REGULAR_SYMBOLS (0, none)
      · rw [h]
        exact le_trans (cand_payout_mono s (s.set i HOUSE) bet b hb hlen hw hbet)
          (foldl_line_step_ge_cand (s.set i HOUSE) bet li REGULAR_SYMBOLS (0, none) b hb
            (le_refl 0))

theorem eval_step_cases (st : DoghouseEngine) (grid : List (List SlotSymbol))
    (acc : List LineWin × Int) (p : Nat × List Nat) :
    eval_step st grid acc p = acc ∨
    ∃ t, (line_best (line_symbols grid p.2) st.bet_per_line p.1).2 = some t ∧
      0 < (line_best (line_symbols grid p.2) st.bet_per_line p.1).1 ∧
      eval_step st grid acc p =
        (acc.1 ++ [t], acc.2 + (line_best (line_symbols grid p.2) st.bet_per_line p.1).1) := by
  unfold eval_step
  split
  · next t ht =>
    split
    · next hpos => exact Or.inr ⟨t, ht, hpos, rfl⟩
    · exact Or.inl rfl
  · exact Or.inl rfl

theorem foldl_eval_step_sum (st : DoghouseEngine) (grid : List (List SlotSymbol)) :
    ∀ (ps : List (Nat × List Nat)) (acc : List LineWin × Int) (c : Int),
      acc.2 = c + (acc.1.map LineWin.payout).sum →
      (ps.foldl (eval_step st grid) acc).2 =
        c + (((ps.foldl (eval_step st grid) acc).1).map LineWin.payout).sum := by
  intro ps
  induction ps with
  | nil => intro acc c h; exact h
  | cons p t ih =>
    intro acc c h
    refine ih (eval_step st grid acc p) c ?_
    rcases eval_step_cases st grid acc p with he | ⟨w, hw, _, he⟩
    · rw [he]; exact h
    · rw [he]
      have hpay : (line_best (line_symbols grid p.2) st.bet_per_line p.1).1 = w.payout :=
        ((line_best_core (line_symbols grid p.2) st.bet_per_line p.1).2.2 w hw).1
      simp only [List.map_append, List.sum_append, List.map_cons, List.map_nil,
        List.sum_cons, List.sum_nil]
      rw [h, hpay]
      ring

theorem foldl_eval_step_snd_le (st : DoghouseEngine) (grid : List (List SlotSymbol)) :
    ∀ (ps : List (Nat × List Nat)) (acc : List LineWin × Int),
      acc.2 ≤ (ps.foldl (eval_step st grid) acc).2 := by
  intro ps
  induction ps with
  | nil => intro acc; exact le_refl _
  | cons p t ih =>
    intro acc
    refine le_trans ?_ (ih (eval_step st grid acc p))
    rcases eval_step_cases st grid acc p with he | ⟨w, _, hpos, he⟩
    · rw [he]
    · rw [he]
      simp only
      linarith

theorem foldl_eval_step_mem_mono (st : DoghouseEngine) (grid : List (List SlotSymbol)) :
    ∀ (ps : List (Nat × List Nat)) (acc : List LineWin × Int) (x : LineWin),
      x ∈ acc.1 → x ∈ (ps.foldl (eval_step st grid) acc).1 := by
  intro ps
  induction ps with
  | nil => intro acc x hx; exact hx
  | cons p t ih =>
    intro acc x hx
    refine ih (eval_step st grid acc p) x ?_
    rcases eval_step_cases st grid acc p with he | ⟨w, _, _, he⟩
    · rw [he]; exact hx
    · rw [he]
      exact List.mem_append_left _ hx

theorem foldl_eval_step_mem (st : DoghouseEngine) (grid : List (List SlotSymbol)) :
    ∀ (ps : List (Nat × List Nat)) (acc : List LineWin × Int) (p : Nat × List Nat)
      (t : LineWin), p ∈ ps →
      (line_best (line_symbols grid p.2) st.bet_per_line p.1).2 = some t →
      0 < (line_best (line_symbols grid p.2) st.bet_per_line p.1).1 →
      t ∈ (ps.foldl (eval_step st grid) acc).1 := by
  intro ps
  induction ps with
  | nil => intro acc p t hp; exact absurd hp (List.not_mem_nil p)
  | cons q u ih =>
    intro acc p t hp ht hpos
    rcases List.mem_cons.mp hp with rfl | hp2
    · refine foldl_eval_step_mem_mono st grid u (eval_step st grid acc p) t ?_
      have he : eval_step st grid acc p =
          (acc.1 ++ [t], acc.2 + (line_best (line_symbols grid p.2) st.bet_per_line p.1).1) := by
        simp [eval_step, ht, hpos]
      rw [he]
      exact List.mem_append_right _ (List.mem_singleton_self t)
    · exact ih (eval_step st grid acc q) p t hp2 ht hpos

theorem evaluate_grid_scatter_win_nonneg (st : DoghouseEngine) (grid : List (List SlotSymbol))
    (hbet : 0 ≤ st.bet_per_line) : 0 ≤ (evaluate_grid st grid).scatter_win := by
  unfold evaluate_grid
  simp only
  split
  · refine mul_nonneg (Int.natCast_nonneg _) ?_
    unfold total_bet
    exact mul_nonneg hbet (Int.natCast_nonneg _)
  · exact le_refl 0

theorem evaluate_grid_scatter_eq (st : DoghouseEngine) (grid : List (List SlotSymbol)) :
    (evaluate_grid st grid).total_win =
      (PAYLINES.enum.foldl (eval_step st grid) ([], (evaluate_grid st grid).scatter_win)).2 ∧
    (evaluate_grid st grid).line_wins =
      (PAYLINES.enum.foldl (eval_step st grid) ([], (evaluate_grid st grid).scatter_win)).1 := by
  unfold evaluate_grid
  exact ⟨rfl, rfl⟩

theorem evaluate_grid_total_nonneg (st : DoghouseEngine) (grid : List (List SlotSymbol))
    (hbet : 0 ≤ st.bet_per_line) : 0 ≤ (evaluate_grid st grid).total_win := by
  obtain ⟨h1, _⟩ := evaluate_grid_scatter_eq st grid
  rw [h1]
  refine le_trans (evaluate_grid_scatter_win_nonneg st grid hbet) ?_
  exact foldl_eval_step_snd_le st grid PAYLINES.enum ([], (evaluate_grid st grid).scatter_win)

/-- C3: for every `SpinResult` the evaluator produces, `totalPayout` equals
`scatterPayout` plus the sum of `payoutCoins` over all entries of
`lineWins`. -/
theorem C3_total_payout_decomposition (st : DoghouseEngine) (grid : List (List SlotSymbol)) :
    (evaluate_grid st grid).total_win =
      (evaluate_grid st grid).scatter_win +
        (((evaluate_grid st grid).line_wins).map LineWin.payout).sum := by
  obtain ⟨h1, h2⟩ := evaluate_grid_scatter_eq st grid
  rw [h1, h2]
  exact foldl_eval_step_sum st grid PAYLINES.enum
    ([], (evaluate_grid st grid).scatter_win) (evaluate_grid st grid).scatter_win (by simp)

/-- C2: `spin()` fails with `InsufficientFunds` exactly when the balance at
spin start is below the total bet and no free spins remain; on that path
the engine state is returned unchanged (balance, bet, free spins and
sticky wilds untouched); and `can_spin()` is true exactly when that
failure does not occur. -/
theorem C2_insufficient_funds (st : DoghouseEngine) (rng : Nat → Nat) :
    ((spin st rng).1 = Except.error SpinError.insufficientFunds ↔
      st.balance < total_bet st ∧ st.free_spins_left = 0) ∧
    ((spin st rng).1 = Except.error SpinError.insufficientFunds → (spin st rng).2 = st) ∧
    (can_spin st = true ↔ (spin st rng).1 ≠ Except.error SpinError.insufficientFunds) := by
  by_cases h : can_spin st = true
  · obtain ⟨grid, st2, hg, hspin, _, _, _, _⟩ := spin_ok st rng h
    have hne : (spin st rng).1 ≠ Except.error SpinError.insufficientFunds := by
      rw [hspin]
      simp
    have hcond : ¬(st.balance < total_bet st ∧ st.free_spins_left = 0) := by
      rcases (can_spin_iff st).mp h with h1 | h1
      · intro hc
        omega
      · intro hc
        exact absurd h1 (not_le_of_lt hc.1)
    exact ⟨⟨fun hf => absurd hf hne, fun hc => absurd hc hcond⟩,
      fun hf => absurd hf hne, ⟨fun _ => hne, fun _ => h⟩⟩
  · have hspin : spin st rng = (Except.error SpinError.insufficientFunds, st) := by
      simp [spin, h]
    have h2 : ¬(0 < st.free_spins_left ∨ total_bet st ≤ st.balance) :=
      fun hc => h ((can_spin_iff st).mpr hc)
    push_neg at h2
    have hcond : st.balance < total_bet st ∧ st.free_spins_left = 0 :=
      ⟨h2.2, by omega⟩
    refine ⟨⟨fun _ => hcond, fun _ => by rw [hspin]⟩, fun _ => by rw [hspin], ?_⟩
    exact ⟨fun hc => absurd hc h, fun hne => absurd (by rw [hspin]) hne⟩

/-- Witness for C2 at Scenario D: balance 5, bet 1 per line (total bet 10),
no free spins: the spin fails and the state is unchanged. -/
theorem C2_witness :
    (spin (DoghouseEngine.init 5 1) rng_zero).2 = DoghouseEngine.init 5 1 :=
  (C2_insufficient_funds (DoghouseEngine.init 5 1) rng_zero).2.1 (by rfl)

theorem settle_balance_fields (x : DoghouseEngine) (r : SpinResult) :
    (settle_balance x r).balance = x.balance + r.total_win ∧
    (settle_balance x r).free_spins_left = x.free_spins_left := ⟨rfl, rfl⟩

theorem award_free_spins_fields (x : DoghouseEngine) (r : SpinResult) :
    (award_free_spins x r).balance = x.balance ∧
    (award_free_spins x r).free_spins_left =
      x.free_spins_left + free_spins_from_scatters r.scatter_count := by
  unfold award_free_spins
  split
  · exact ⟨rfl, rfl⟩
  · next h => exact ⟨rfl, by omega⟩

theorem consume_free_spin_fields (x : DoghouseEngine) :
    (consume_free_spin x).balance = x.balance ∧
    (consume_free_spin x).free_spins_left =
      (if 0 < x.free_spins_left then x.free_spins_left - 1 else x.free_spins_left) := by
  unfold consume_free_spin
  split
  · exact ⟨rfl, rfl⟩
  · exact ⟨rfl, rfl⟩

theorem spin_final_fields (st : DoghouseEngine) (rng : Nat → Nat) (h : can_spin st = true) :
    ∃ grid st2,
      generate_grid_with_sticky (debit_state st) rng = (some grid, st2) ∧
      spin_payout st rng = (evaluate_grid st2 grid).total_win ∧
      spin_scatters st rng = (evaluate_grid st2 grid).scatter_count ∧
      (spin st rng).2.balance = (debit_state st).balance + (evaluate_grid st2 grid).total_win ∧
      (spin st rng).2.free_spins_left =
        (if 0 < st.free_spins_left +
              free_spins_from_scatters (evaluate_grid st2 grid).scatter_count
         then st.free_spins_left +
              free_spins_from_scatters (evaluate_grid st2 grid).scatter_count - 1
         else st.free_spins_left +
              free_spins_from_scatters (evaluate_grid st2 grid).scatter_count) ∧
      st2.bet_per_line = st.bet_per_line := by
  obtain ⟨grid, st2, hg, hspin, hb, hbet, hf, hl⟩ := spin_ok st rng h
  refine ⟨grid, st2, hg, ?_, ?_, ?_, ?_, hbet⟩
  · unfold spin_payout
    rw [hspin]
  · unfold spin_scatters
    rw [hspin]
  · rw [hspin]
    show (consume_free_spin (award_free_spins
        (settle_balance st2 (evaluate_grid st2 grid)) (evaluate_grid st2 grid))).balance = _
    rw [(consume_free_spin_fields _).1, (award_free_spins_fields _ _).1,
      (settle_balance_fields _ _).1, hb]
  · rw [hspin]
    show (consume_free_spin (award_free_spins
        (settle_balance st2 (evaluate_grid st2 grid)) (evaluate_grid st2 grid))).free_spins_left = _
    rw [(consume_free_spin_fields _).2, (award_free_spins_fields _ _).2,
      (settle_balance_fields _ _).2, hf]

/-- C6: in every successful spin, the balance is debited by the total bet
exactly when `freeSpinsRemaining` was 0 at spin start and never otherwise,
and the spin payout is credited in both cases, so the net balance change is
the payout minus the conditional debit. -/
theorem C6_balance_update (st : DoghouseEngine) (rng : Nat → Nat) (h : can_spin st = true) :
    (spin st rng).2.balance =
      st.balance + spin_payout st rng -
        (if st.free_spins_left = 0 then total_bet st else 0) := by
  obtain ⟨grid, st2, _, hpay, _, hbal, _, _⟩ := spin_final_fields st rng h
  rw [hbal, hpay]
  by_cases hf0 : st.free_spins_left = 0
  · rw [if_pos hf0]
    have : (debit_state st).balance = st.balance - total_bet st := by
      simp [debit_state, hf0]
    rw [this]
    ring
  · rw [if_neg hf0]
    have : (debit_state st).balance = st.balance := by
      simp [debit_state, hf0]
    rw [this]
    ring

/-- Witness for C6: a concrete base-game spin from the initial state; the
balance moves by the payout minus the total bet. -/
theorem C6_witness :
    (spin (DoghouseEngine.init 1000 1) rng_zero).2.balance =
      1000 + spin_payout (DoghouseEngine.init 1000 1) rng_zero -
        (if (DoghouseEngine.init 1000 1).free_spins_left = 0
         then total_bet (DoghouseEngine.init 1000 1) else 0) :=
  C6_balance_update (DoghouseEngine.init 1000 1) rng_zero (by rfl)

/-- C5: the scatter payout uses the highest defined tier not exceeding the
scatter count (3 -> 2x, 4 -> 10x, 5 and above -> 50x) times the TOTAL bet
(bet per line x 10 lines), a count below 3 pays nothing; the same
highest-threshold rule on the free-spin table (3 -> 8, 4 -> 12, 5 -> 15)
gives the awarded free spins, which a successful spin adds to
`freeSpinsRemaining` before consuming one spin, also during an active
bonus (retrigger). -/
theorem C5_scatter_and_free_spins :
    (∀ (st : DoghouseEngine) (grid : List (List SlotSymbol)),
      (evaluate_grid st grid).scatter_count =
        grid.flatten.countP (fun x => decide (x = PAW)) ∧
      (evaluate_grid st grid).scatter_win =
        (if 5 ≤ (evaluate_grid st grid).scatter_count then 50 * total_bet st
         else if (evaluate_grid st grid).scatter_count = 4 then 10 * total_bet st
         else if (evaluate_grid st grid).scatter_count = 3 then 2 * total_bet st
         else 0)) ∧
    (∀ st : DoghouseEngine, st.lines = LINES → total_bet st = st.bet_per_line * 10) ∧
    (∀ c : Nat, free_spins_from_scatters c =
      (if 5 ≤ c then 15 else if c = 4 then 12 else if c = 3 then 8 else 0)) ∧
    (∀ (st : DoghouseEngine) (rng : Nat → Nat), can_spin st = true →
      (spin st rng).2.free_spins_left =
        (if 0 < st.free_spins_left + free_spins_from_scatters (spin_scatters st rng)
         then st.free_spins_left + free_spins_from_scatters (spin_scatters st rng) - 1
         else st.free_spins_left + free_spins_from_scatters (spin_scatters st rng))) := by
  refine ⟨?_, ?_, ?_, ?_⟩
  · intro st grid
    refine ⟨rfl, ?_⟩
    show (if 3 ≤ grid.flatten.countP (fun x => decide (x = PAW)) then
        (((SCATTER_PAYS (grid.flatten.countP (fun x => decide (x = PAW)))).getD
            ((SCATTER_PAYS 5).getD 0) : Int) * total_bet st)
      else 0) = _
    have hc : (evaluate_grid st grid).scatter_count =
        grid.flatten.countP (fun x => decide (x = PAW)) := rfl
    rw [hc]
    set c := grid.flatten.countP (fun x => decide (x = PAW)) with hcdef
    by_cases h5 : 5 ≤ c
    · rw [if_pos (by omega), if_pos h5]
      by_cases he : c = 5
      · simp [SCATTER_PAYS, he]
      · have h3 : ¬ c = 3 := by omega
        have h4 : ¬ c = 4 := by omega
        simp [SCATTER_PAYS, h3, h4, he]
    · by_cases h4 : c = 4
      · rw [if_pos (by omega), if_neg h5, if_pos h4]
        simp [SCATTER_PAYS, h4]
      · by_cases h3 : c = 3
        · rw [if_pos (by omega), if_neg h5, if_neg h4, if_pos h3]
          simp [SCATTER_PAYS, h3]
        · rw [if_neg (by omega), if_neg h5, if_neg h4, if_neg h3]
  · intro st hl
    unfold total_bet
    rw [hl]
    norm_num [LINES]
  · intro c
    unfold free_spins_from_scatters
    simp only [SCATTER_FREE_SPINS]
    norm_num
    split_ifs <;> omega
  · intro st rng h
    obtain ⟨grid, st2, _, _, hsc, _, hfree, _⟩ := spin_final_fields st rng h
    rw [hfree, hsc]

/-- Witness for C5: the free-spin bookkeeping evaluated on a concrete
base-game spin from the initial state. -/
theorem C5_witness :
    (spin (DoghouseEngine.init 1000 1) rng_zero).2.free_spins_left =
      (if 0 < (DoghouseEngine.init 1000 1).free_spins_left +
            free_spins_from_scatters (spin_scatters (DoghouseEngine.init 1000 1) rng_zero)
       then (DoghouseEngine.init 1000 1).free_spins_left +
            free_spins_from_scatters (spin_scatters (DoghouseEngine.init 1000 1) rng_zero) - 1
       else (DoghouseEngine.init 1000 1).free_spins_left +
            free_spins_from_scatters (spin_scatters (DoghouseEngine.init 1000 1) rng_zero)) :=
  C5_scatter_and_free_spins.2.2.2 (DoghouseEngine.init 1000 1) rng_zero (by rfl)

/-- C10: balance non-negativity is preserved: a spin from a state with
non-negative balance and non-negative bet leaves the balance non-negative
(the debit is guarded by `can_spin` and the credited payout is
non-negative), and `change_bet` never touches the balance while keeping
the bet inside `[1, 100]`. -/
theorem C10_balance_invariant (st : DoghouseEngine) (rng : Nat → Nat) (delta : Int)
    (hbal : 0 ≤ st.balance) (hbet : 0 ≤ st.bet_per_line) :
    0 ≤ (spin st rng).2.balance ∧
    0 ≤ spin_payout st rng ∧
    (change_bet st delta).balance = st.balance ∧
    1 ≤ (change_bet st delta).bet_per_line ∧ (change_bet st delta).bet_per_line ≤ 100 := by
  have hspin : 0 ≤ (spin st rng).2.balance ∧ 0 ≤ spin_payout st rng := by
    by_cases h : can_spin st = true
    · obtain ⟨grid, st2, _, hpay, _, hbal2, _, hbet2⟩ := spin_final_fields st rng h
      have hwin : 0 ≤ (evaluate_grid st2 grid).total_win :=
        evaluate_grid_total_nonneg st2 grid (by rw [hbet2]; exact hbet)
      constructor
      · rw [hbal2]
        by_cases hf0 : st.free_spins_left = 0
        · have hdb : (debit_state st).balance = st.balance - total_bet st := by
            simp [debit_state, hf0]
          have htb : total_bet st ≤ st.balance := by
            rcases (can_spin_iff st).mp h with h1 | h1
            · omega
            · exact h1
          rw [hdb]
          omega
        · have hdb : (debit_state st).balance = st.balance := by
            simp [debit_state, hf0]
          rw [hdb]
          omega
      · rw [hpay]
        exact hwin
    · have hspin : spin st rng = (Except.error SpinError.insufficientFunds, st) := by
        simp [spin, h]
      constructor
      · rw [hspin]
        exact hbal
      · unfold spin_payout
        rw [hspin]
  exact ⟨hspin.1, hspin.2, rfl, le_max_left 1 _,
    max_le (by norm_num) (min_le_left 100 _)⟩

/-- Witness for C10: the invariant applied to the freshly initialised
engine and a concrete raw-draw stream. -/
theorem C10_witness :
    0 ≤ (spin (DoghouseEngine.init 1000 1) rng_zero).2.balance ∧
    0 ≤ spin_payout (DoghouseEngine.init 1000 1) rng_zero ∧
    (change_bet (DoghouseEngine.init 1000 1) 1).balance = 1000 ∧
    1 ≤ (change_bet (DoghouseEngine.init 1000 1) 1).bet_per_line ∧
    (change_bet (DoghouseEngine.init 1000 1) 1).bet_per_line ≤ 100 :=
  C10_balance_invariant (DoghouseEngine.init 1000 1) rng_zero 1 (by decide) (by decide)

theorem line_best_eq_fold (s : List SlotSymbol) (bet : Int) (li : Nat)
    (hnw : s.all (fun x => decide (x = HOUSE)) = false) :
    line_best s bet li = REGULAR_SYMBOLS.foldl (line_step s bet li) (0, none) := by
  unfold line_best
  rw [hnw]
  simp

theorem foldl_line_step_id (s : List SlotSymbol) (bet : Int) (li : Nat) :
    ∀ (l : List SlotSymbol) (acc : Int × Option LineWin),
      (∀ b ∈ l, (match_length_left s b).1 < 3) →
      l.foldl (line_step s bet li) acc = acc := by
  intro l
  induction l with
  | nil => intro acc _; rfl
  | cons x t ih =>
    intro acc hall
    have hx : line_step s bet li acc x = acc := by
      unfold line_step
      rw [if_neg (by have := hall x (List.mem_cons_self x t); omega)]
    rw [List.foldl_cons, hx]
    exact ih acc (fun b hb => hall b (List.mem_cons_of_mem x hb))

/-- C4: for every payline and non-Wild non-Scatter base symbol the
evaluator computes the longest left-aligned run of cells equal to the base
or Wild together with the Wild count inside it; a qualifying run of length
at least 3 with a paytable entry offers `multiplier x betPerLine x
2^wildCount`, only the maximum-payout candidate of the line is kept and it
really is such a candidate, a line with no qualifying run is dropped, and
on `[D1, WILD, D1, D1, COLLAR]` with bet 1 this gives run length 4, one
Wild and 60 coins. -/
theorem C4_line_evaluation :
    (∀ (symbols : List SlotSymbol) (base : SlotSymbol),
      match_length_left symbols base =
        ((symbols.takeWhile fun x => decide (x = base ∨ x = HOUSE)).length,
         (symbols.takeWhile fun x => decide (x = base ∨ x = HOUSE)).countP
           fun x => decide (x = HOUSE))) ∧
    (∀ (symbols : List SlotSymbol) (bet : Int) (li : Nat) (base : SlotSymbol) (mult : Nat),
      base ∈ REGULAR_SYMBOLS →
      symbols.all (fun x => decide (x = HOUSE)) = false →
      3 ≤ (match_length_left symbols base).1 →
      PAYTABLE base (match_length_left symbols base).1 = some mult →
      (mult : Int) * bet * 2 ^ (match_length_left symbols base).2 ≤
        (line_best symbols bet li).1) ∧
    (∀ (symbols : List SlotSymbol) (bet : Int) (li : Nat),
      symbols.all (fun x => decide (x = HOUSE)) = false →
      (∀ base ∈ REGULAR_SYMBOLS, (match_length_left symbols base).1 < 3) →
      line_best symbols bet li = (0, none)) ∧
    (∀ (symbols : List SlotSymbol) (bet : Int) (li : Nat) (t : LineWin),
      symbols.all (fun x => decide (x = HOUSE)) = false →
      (line_best symbols bet li).2 = some t →
      ∃ m, t.base ∈ REGULAR_SYMBOLS ∧ 3 ≤ t.length ∧
        t.length = (match_length_left symbols t.base).1 ∧
        PAYTABLE t.base t.length = some m ∧
        t.mult_eff = m * 2 ^ (match_length_left symbols t.base).2 ∧
        t.payout = (m : Int) * bet * 2 ^ (match_length_left symbols t.base).2 ∧
        (line_best symbols bet li).1 = t.payout ∧ t.li = li) ∧
    (match_length_left [DOG1, HOUSE, DOG1, DOG1, COLLAR] DOG1 = (4, 1) ∧
      line_best [DOG1, HOUSE, DOG1, DOG1, COLLAR] 1 0 = (60, some ⟨0, DOG1, 4, 60, 60⟩)) := by
  refine ⟨fun symbols base => match_length_left_takeWhile base symbols, ?_, ?_, ?_, ?_⟩
  · intro symbols bet li base mult hbase hnw h3 hpt
    rw [line_best_eq_fold symbols bet li hnw,
      ← cand_payout_eq symbols bet base mult h3 hpt]
    exact foldl_line_step_ge_cand symbols bet li REGULAR_SYMBOLS (0, none) base hbase
      (le_refl 0)
  · intro symbols bet li hnw hall
    rw [line_best_eq_fold symbols bet li hnw]
    exact foldl_line_step_id symbols bet li REGULAR_SYMBOLS (0, none) hall
  · intro symbols bet li t hnw ht
    obtain ⟨_, _, hsome⟩ := line_best_char symbols bet li hnw
    obtain ⟨hfst, _, hli, hbase, h3, hlen, m, hpt, hme, hpay⟩ := hsome t ht
    exact ⟨m, hbase, h3, hlen, hpt, hme, hpay, hfst, hli⟩
  · exact ⟨by decide, by decide⟩

/-- Witness for C4 (Scenario A): base `D1` on `[D1, WILD, D1, D1, COLLAR]`
has run length 4, paytable multiplier 30, and the offered payout
`30 x 1 x 2` is dominated by the line's best payout. -/
theorem C4_witness :
    (30 : Int) * 1 * 2 ^ (match_length_left [DOG1, HOUSE, DOG1, DOG1, COLLAR] DOG1).2 ≤
      (line_best [DOG1, HOUSE, DOG1, DOG1, COLLAR] 1 0).1 :=
  C4_line_evaluation.2.1 [DOG1, HOUSE, DOG1, DOG1, COLLAR] 1 0 DOG1 30
    (by decide) (by decide) (by decide) (by decide)

/-- C7: a payline whose five symbols are all Wild is scored as the
top-paying base symbol `D1` at run length 5 with five Wild doublings:
its entry in `lineWins` pays `100 x 2^5 x betPerLine = 3200 x betPerLine`
coins. -/
theorem C7_all_wild_line (st : DoghouseEngine) (grid : List (List SlotSymbol))
    (li : Nat) (line : List Nat)
    (hmem : (li, line) ∈ PAYLINES.enum)
    (hall : line_symbols grid line = [HOUSE, HOUSE, HOUSE, HOUSE, HOUSE])
    (hbet : 1 ≤ st.bet_per_line) :
    (⟨li, DOG1, 5, 3200, 3200 * st.bet_per_line⟩ : LineWin) ∈
      (evaluate_grid st grid).line_wins := by
  have hb0 : (0 : Int) < st.bet_per_line := by omega
  have h100 : ((PAYTABLE DOG1 5).getD 0 : Int) = 100 := by decide
  have hpos : (0 : Int) < ((PAYTABLE DOG1 5).getD 0 : Int) * st.bet_per_line * 2 ^ REELS := by
    rw [h100]
    exact mul_pos (mul_pos (by norm_num) hb0) (pow_pos (by norm_num) _)
  have hlb : line_best [HOUSE, HOUSE, HOUSE, HOUSE, HOUSE] st.bet_per_line li =
      (((PAYTABLE DOG1 5).getD 0 : Int) * st.bet_per_line * 2 ^ REELS,
       some ⟨li, DOG1, REELS, (PAYTABLE DOG1 5).getD 0 * 2 ^ REELS,
             ((PAYTABLE DOG1 5).getD 0 : Int) * st.bet_per_line * 2 ^ REELS⟩) := by
    unfold line_best
    rw [if_pos (by decide), if_pos hpos]
  have hrec : (⟨li, DOG1, 5, 3200, 3200 * st.bet_per_line⟩ : LineWin) =
      ⟨li, DOG1, REELS, (PAYTABLE DOG1 5).getD 0 * 2 ^ REELS,
       ((PAYTABLE DOG1 5).getD 0 : Int) * st.bet_per_line * 2 ^ REELS⟩ := by
    rw [h100]
    have h1 : (PAYTABLE DOG1 5).getD 0 * 2 ^ REELS = 3200 := by decide
    rw [h1]
    simp only [REELS, LineWin.mk.injEq, true_and]
    ring
  rw [hrec]
  obtain ⟨_, hlw⟩ := evaluate_grid_scatter_eq st grid
  rw [hlw]
  refine foldl_eval_step_mem st grid PAYLINES.enum _ (li, line) _ hmem ?_ ?_
  · show (line_best (line_symbols grid line) st.bet_per_line li).2 = some _
    rw [hall, hlb]
  · show 0 < (line_best (line_symbols grid line) st.bet_per_line li).1
    rw [hall, hlb]
    exact hpos

/-- Witness for C7 (Scenario C): the all-Wild grid makes every payline all
Wild; line 0 (the centre line) pays 3200 coins at bet 1. -/
theorem C7_witness :
    (⟨0, DOG1, 5, 3200, 3200 * (DoghouseEngine.init 1000 1).bet_per_line⟩ : LineWin) ∈
      (evaluate_grid (DoghouseEngine.init 1000 1)
        [[HOUSE, HOUSE, HOUSE], [HOUSE, HOUSE, HOUSE], [HOUSE, HOUSE, HOUSE],
         [HOUSE, HOUSE, HOUSE], [HOUSE, HOUSE, HOUSE]]).line_wins :=
  C7_all_wild_line (DoghouseEngine.init 1000 1)
    [[HOUSE, HOUSE, HOUSE], [HOUSE, HOUSE, HOUSE], [HOUSE, HOUSE, HOUSE],
     [HOUSE, HOUSE, HOUSE], [HOUSE, HOUSE, HOUSE]]
    0 [1, 1, 1, 1, 1] (by decide) (by decide) (by decide)

/-- C8 (amended): replacing a cell inside a base symbol's matched run by
Wild never decreases that base's computed run length or wild count, and
never decreases the line's best payout; with a positive bet the best win's
effective multiplier also never decreases.  (The best win's RUN LENGTH can
decrease when a different, higher-paying base symbol takes over; see the
counterexample.) -/
theorem C8_wild_front_monotone (symbols : List SlotSymbol) (base : SlotSymbol) (i : Nat)
    (bet : Int) (li : Nat)
    (hlen : symbols.length = REELS)
    (hrun : i < (match_length_left symbols base).1)
    (hbet : 0 ≤ bet) :
    (match_length_left symbols base).1 ≤ (match_length_left (symbols.set i HOUSE) base).1 ∧
    (match_length_left symbols base).2 ≤ (match_length_left (symbols.set i HOUSE) base).2 ∧
    (line_best symbols bet li).1 ≤ (line_best (symbols.set i HOUSE) bet li).1 ∧
    (1 ≤ bet → ∀ t, (line_best symbols bet li).2 = some t →
      ∃ t2, (line_best (symbols.set i HOUSE) bet li).2 = some t2 ∧
        t.mult_eff ≤ t2.mult_eff) := by
  have hw := wilder_set symbols i
  have hm := match_length_left_mono base hw
  have hlen5 : symbols.length = 5 := by
    rw [hlen]
    rfl
  have hbm := line_best_mono symbols i bet li hlen5 hbet
  refine ⟨hm.1, hm.2, hbm, ?_⟩
  intro hbet1 t ht
  obtain ⟨-, -, hsome⟩ := line_best_core symbols bet li
  obtain ⟨hfst, hpos, -, hme⟩ := hsome t ht
  have hpos2 : 0 < (line_best (symbols.set i HOUSE) bet li).1 :=
    lt_of_lt_of_le (hfst ▸ hpos) hbm
  obtain ⟨-, hnone2, hsome2⟩ := line_best_core (symbols.set i HOUSE) bet li
  cases ht2 : (line_best (symbols.set i HOUSE) bet li).2 with
  | none =>
    rw [hnone2 ht2] at hpos2
    exact absurd hpos2 (lt_irrefl 0)
  | some t2 =>
    obtain ⟨hfst2, -, -, hme2⟩ := hsome2 t2 ht2
    refine ⟨t2, rfl, ?_⟩
    have hle : (t.mult_eff : Int) * bet ≤ (t2.mult_eff : Int) * bet := by
      rw [← hme, ← hme2]
      calc t.payout = (line_best symbols bet li).1 := hfst.symm
        _ ≤ (line_best (symbols.set i HOUSE) bet li).1 := hbm
        _ = t2.payout := hfst2
    have hcast : (t.mult_eff : Int) ≤ (t2.mult_eff : Int) :=
      le_of_mul_le_mul_right hle (by omega)
    exact_mod_cast hcast

/-- C8 counterexample: on line `[WILD, WILD, BONE, BONE, D2]` at bet 1 the
best win is BONE with run length 4 and cell 2 lies inside that matched
run, yet replacing that cell by Wild moves the best win to `D1` with run
length 3: the best win's computed run length decreases from 4 to 3 (its
payout grows 20 -> 64), refuting the claim as stated. -/
theorem C8_counterexample :
    (line_best [HOUSE, HOUSE, BONE, BONE, DOG2] 1 0).2 =
      some ⟨0, BONE, 4, 20, 20⟩ ∧
    2 < (match_length_left [HOUSE, HOUSE, BONE, BONE, DOG2] BONE).1 ∧
    [HOUSE, HOUSE, BONE, BONE, DOG2].set 2 HOUSE =
      [HOUSE, HOUSE, HOUSE, BONE, DOG2] ∧
    (line_best [HOUSE, HOUSE, HOUSE, BONE, DOG2] 1 0).2 =
      some ⟨0, DOG1, 3, 64, 64⟩ ∧
    ¬ (4 : Nat) ≤ 3 := by decide

/-- Witness for the amended C8 on `[D1, D1, D1, D2, D2]`, wildening cell 0
of the matched `D1` run at bet 1. -/
theorem C8_witness :
    (match_length_left [DOG1, DOG1, DOG1, DOG2, DOG2] DOG1).1 ≤
      (match_length_left ([DOG1, DOG1, DOG1, DOG2, DOG2].set 0 HOUSE) DOG1).1 ∧
    (match_length_left [DOG1, DOG1, DOG1, DOG2, DOG2] DOG1).2 ≤
      (match_length_left ([DOG1, DOG1, DOG1, DOG2, DOG2].set 0 HOUSE) DOG1).2 ∧
    (line_best [DOG1, DOG1, DOG1, DOG2, DOG2] 1 0).1 ≤
      (line_best ([DOG1, DOG1, DOG1, DOG2, DOG2].set 0 HOUSE) 1 0).1 ∧
    (1 ≤ (1 : Int) → ∀ t, (line_best [DOG1, DOG1, DOG1, DOG2, DOG2] 1 0).2 = some t →
      ∃ t2, (line_best ([DOG1, DOG1, DOG1, DOG2, DOG2].set 0 HOUSE) 1 0).2 = some t2 ∧
        t.mult_eff ≤ t2.mult_eff) :=
  C8_wild_front_monotone [DOG1, DOG1, DOG1, DOG2, DOG2] DOG1 0 1 0
    (by decide) (by decide) (by decide)

/-- C1 (refuting evaluation): from a bonus state with one free spin left
and no sticky wilds, a Wild drawn at cell (0,0) becomes sticky and the
bonus then ends (`freeSpinsRemaining` reaches 0); the next spin is a
base-game spin, yet its grid is still forced to Wild at (0,0) by the
leftover sticky entry even though the fresh draw would have produced `D1`;
only after that generation is the sticky set cleared.  The sticky set is
therefore NOT cleared before the generation of a spin that begins with
`freeSpinsRemaining == 0`. -/
theorem C1_sticky_cleared_only_after_generation :
    (spin bonus_state rng_wild_first).2.free_spins_left = 0 ∧
    (spin bonus_state rng_wild_first).2.sticky_wilds = [(0, 0)] ∧
    cellAt (spin_grid (spin bonus_state rng_wild_first).2 rng_zero) 0 0 = HOUSE ∧
    weighted_choice symbols_list weights_list (rng_zero 0) = some DOG1 ∧
    (spin (spin bonus_state rng_wild_first).2 rng_zero).2.sticky_wilds = [] := by
  decide

/-- C9 counterexample: the constructor performs no validation at all -
`DoghouseEngine.init` is plain field assignment accepting any arguments -
while an empty or zero-total-weight symbol table makes the weighted draw
itself fail, i.e. such a configuration error would surface during
spin-time grid generation, not at construction time. -/
theorem C9_counterexample :
    weighted_choice symbols_list [0, 0, 0, 0, 0, 0, 0, 0, 0] 0 = none ∧
    weighted_choice [] [] 0 = none ∧
    DoghouseEngine.init (-5) 0 =
      { balance := -5, bet_per_line := 0, lines := 10, free_spins_left := 0,
        sticky_wilds := [], last_result := none } := by decide

/-- C9 (amended): construction never fails and performs no checks, but the
fixed configuration the engine stores is valid - the weight table sums to
48 > 0, every payline covers all 5 reels, and every paytable symbol is a
weighted symbol - so spin-time grid generation never fails: every engine
weighted draw and every generated grid succeeds. -/
theorem C9_config_valid_generation_total :
    weights_list.sum = 48 ∧
    (∀ line ∈ PAYLINES, line.length = REELS) ∧
    (∀ b ∈ REGULAR_SYMBOLS, b ∈ symbols_list) ∧
    (∀ r : Nat, (weighted_choice symbols_list weights_list r).isSome = true) ∧
    (∀ (st : DoghouseEngine) (rng : Nat → Nat),
      ((generate_grid_with_sticky st rng).1).isSome = true) := by
  refine ⟨by decide, by decide, by decide, ?_, ?_⟩
  · intro r
    obtain ⟨s, hs⟩ := weighted_choice_engine_total r
    rw [hs]
    rfl
  · intro st rng
    obtain ⟨grid, st2, hg, -, -, -, -, -, -⟩ := generate_some st rng
    rw [hg]
    rfl

/-- Witness for C9: the centre payline has length 5, the reel count. -/
theorem C9_witness : ([1, 1, 1, 1, 1] : List Nat).length = REELS :=
  C9_config_valid_generation_total.2.1 [1, 1, 1, 1, 1] (by decide)
